import Mathlib

/-!
Verification development for the slideshow gallery application (src/app.js).

The ingestion and persistence pipeline is embedded shallowly:

* bytes are `Nat` values (< 256 where it matters), payloads are `List Nat`;
* the browser builtins `btoa` / `atob` used by `arrayBufferToBase64` /
  `base64ToArrayBuffer` are modelled as executable base64 encode / decode
  (decode follows the forgiving-base64 algorithm: strip ASCII whitespace,
  strip up to two trailing padding characters, reject anything else that is
  not in the alphabet);
* JSON values produced by `JSON.parse` are modelled by the inductive `JValue`
  (a parse failure is `Option.none` at the call site);
* JavaScript numbers are modelled by `JNum` (`nan` or an exact rational);
  infinities are collapsed into `nan` — the only numeric comparison the
  program performs on coerced numbers is against the literal 1, where the
  two behave identically;
* the mutable page state (gallery entries, signature set, IndexedDB store,
  delay setting and its localStorage copy) is an explicit `AppState` record
  threaded through the operations;
* `Date.now()` and the random part of `generateImportSignature` are passed
  in as parameters (`now`, `gen`).
-/

/-- The base64 alphabet used by `btoa` / `atob`, indexed 0–63. -/
def b64Alphabet : List Char :=
  ['A', 'B', 'C', 'D', 'E', 'F', 'G', 'H', 'I', 'J', 'K', 'L', 'M',
   'N', 'O', 'P', 'Q', 'R', 'S', 'T', 'U', 'V', 'W', 'X', 'Y', 'Z',
   'a', 'b', 'c', 'd', 'e', 'f', 'g', 'h', 'i', 'j', 'k', 'l', 'm',
   'n', 'o', 'p', 'q', 'r', 's', 't', 'u', 'v', 'w', 'x', 'y', 'z',
   '0', '1', '2', '3', '4', '5', '6', '7', '8', '9', '+', '/']

/-- Character for a sextet value. -/
def b64char (n : Nat) : Char := b64Alphabet.getD n 'A'

/-- Sextet value of an alphabet character; `none` for characters outside the
alphabet (these make `atob` throw). -/
def b64index (c : Char) : Option Nat := b64Alphabet.findIdx? (fun d => d == c)

/-- Encoder core: bytes to sextets, three bytes becoming four sextets
(the arithmetic form of the usual shift / mask computation). -/
def bytesToSextets : List Nat → List Nat
  | [] => []
  | [b0] => [b0 / 4, b0 % 4 * 16]
  | [b0, b1] => [b0 / 4, b0 % 4 * 16 + b1 / 16, b1 % 16 * 4]
  | b0 :: b1 :: b2 :: rest =>
      b0 / 4 :: (b0 % 4 * 16 + b1 / 16) :: (b1 % 16 * 4 + b2 / 64) :: b2 % 64 ::
        bytesToSextets rest

/-- Number of `'='` padding characters appended for a payload of `n` bytes. -/
def b64PadLen (n : Nat) : Nat := (3 - n % 3) % 3

/-- Model of `arrayBufferToBase64` (src/app.js): the bytes of the buffer are
turned into a binary string and passed to `btoa`; the result is standard
padded base64. -/
def arrayBufferToBase64 (bytes : List Nat) : String :=
  String.mk ((bytesToSextets bytes).map b64char ++ List.replicate (b64PadLen bytes.length) '=')

/-- ASCII whitespace stripped by forgiving-base64 decoding. -/
def isB64Space (c : Char) : Bool :=
  c == ' ' || c == '\t' || c == '\n' || c == '\r' || c == '\x0c'

/-- Remove up to two trailing `'='` characters (forgiving-base64, step for
inputs whose length is a multiple of four). -/
def stripPad (cs : List Char) : List Char :=
  cs.take (cs.length - min 2 (cs.reverse.takeWhile (fun c => c == '=')).length)

/-- Decoder core: sextets to bytes; a trailing group of one sextet is a
format error, groups of two or three drop the unused low bits. -/
def sextetsToBytes : List Nat → Option (List Nat)
  | [] => some []
  | [_] => none
  | [a, b] => some [a * 4 + b / 16]
  | [a, b, c] => some [a * 4 + b / 16, b % 16 * 16 + c / 4]
  | a :: b :: c :: d :: rest =>
      (sextetsToBytes rest).map
        (fun tail => (a * 4 + b / 16) :: (b % 16 * 16 + c / 4) :: (c % 4 * 64 + d) :: tail)

/-- Translate every character to its sextet, failing on the first character
outside the alphabet. -/
def decodeB64Chars : List Char → Option (List Nat)
  | [] => some []
  | c :: rest =>
      match b64index c, decodeB64Chars rest with
      | some v, some vs => some (v :: vs)
      | _, _ => none

/-- Model of `base64ToArrayBuffer` (src/app.js): `atob` — the forgiving
base64 decode, which throws (`none`) on malformed input — followed by reading
the character codes into a byte buffer. -/
def base64ToArrayBuffer (s : String) : Option (List Nat) :=
  let cs := s.data.filter (fun c => !isB64Space c)
  let cs := if cs.length % 4 == 0 then stripPad cs else cs
  match decodeB64Chars cs with
  | some sextets => sextetsToBytes sextets
  | none => none

theorem sextets_lt_64 : ∀ bs : List Nat, (∀ b ∈ bs, b < 256) →
    ∀ x ∈ bytesToSextets bs, x < 64
  | [], _ => by intro x hx; simp [bytesToSextets] at hx
  | [b0], h => by
      intro x hx
      have hb0 : b0 < 256 := h b0 (by simp)
      simp [bytesToSextets] at hx
      rcases hx with hx | hx <;> omega
  | [b0, b1], h => by
      intro x hx
      have hb0 : b0 < 256 := h b0 (by simp)
      have hb1 : b1 < 256 := h b1 (by simp)
      simp [bytesToSextets] at hx
      rcases hx with hx | hx | hx <;> omega
  | b0 :: b1 :: b2 :: rest, h => by
      intro x hx
      have hb0 : b0 < 256 := h b0 (by simp)
      have hb1 : b1 < 256 := h b1 (by simp)
      have hb2 : b2 < 256 := h b2 (by simp)
      have ih := sextets_lt_64 rest (by intro b hb; exact h b (by simp [hb]))
      simp [bytesToSextets] at hx
      rcases hx with hx | hx | hx | hx | hx
      · omega
      · omega
      · omega
      · omega
      · exact ih x hx

theorem sextets_roundtrip : ∀ bs : List Nat, (∀ b ∈ bs, b < 256) →
    sextetsToBytes (bytesToSextets bs) = some bs
  | [], _ => rfl
  | [b0], h => by
      have hb0 : b0 < 256 := h b0 (by simp)
      simp [bytesToSextets, sextetsToBytes]
      omega
  | [b0, b1], h => by
      have hb0 : b0 < 256 := h b0 (by simp)
      have hb1 : b1 < 256 := h b1 (by simp)
      simp [bytesToSextets, sextetsToBytes]
      omega
  | b0 :: b1 :: b2 :: rest, h => by
      have hb0 : b0 < 256 := h b0 (by simp)
      have hb1 : b1 < 256 := h b1 (by simp)
      have hb2 : b2 < 256 := h b2 (by simp)
      have ih := sextets_roundtrip rest (by intro b hb; exact h b (by simp [hb]))
      cases hrest : bytesToSextets rest with
      | nil =>
          rw [hrest] at ih
          simp [bytesToSextets, hrest, sextetsToBytes, ih]
          omega
      | cons s ss =>
          rw [hrest] at ih
          have : sextetsToBytes (bytesToSextets (b0 :: b1 :: b2 :: rest)) =
              (sextetsToBytes (bytesToSextets rest)).map
                (fun tail => (b0 / 4 * 4 + (b0 % 4 * 16 + b1 / 16) / 16) ::
                  ((b0 % 4 * 16 + b1 / 16) % 16 * 16 + (b1 % 16 * 4 + b2 / 64) / 4) ::
                  ((b1 % 16 * 4 + b2 / 64) % 4 * 64 + b2 % 64) :: tail) := by
            rw [show bytesToSextets (b0 :: b1 :: b2 :: rest) =
              b0 / 4 :: (b0 % 4 * 16 + b1 / 16) :: (b1 % 16 * 4 + b2 / 64) :: b2 % 64 ::
                bytesToSextets rest from rfl, hrest]
            cases ss <;> rfl
          rw [this, hrest, ih]
          simp
          constructor
          · omega
          constructor
          · omega
          · omega

theorem sextets_length_mod : ∀ bs : List Nat,
    ((bytesToSextets bs).length + b64PadLen bs.length) % 4 = 0
  | [] => rfl
  | [_] => by simp [bytesToSextets, b64PadLen]
  | [_, _] => by simp [bytesToSextets, b64PadLen]
  | b0 :: b1 :: b2 :: rest => by
      have ih := sextets_length_mod rest
      simp only [bytesToSextets, List.length_cons]
      have hpad : b64PadLen (rest.length + 1 + 1 + 1) = b64PadLen rest.length := by
        simp only [b64PadLen]
        omega
      rw [hpad]
      omega

theorem b64index_b64char : ∀ k : Fin 64, b64index (b64char k.val) = some k.val := by
  decide

theorem b64char_ne_pad : ∀ k : Fin 64, b64char k.val ≠ '=' := by
  decide

theorem b64char_not_space : ∀ k : Fin 64, isB64Space (b64char k.val) = false := by
  decide

theorem decodeB64Chars_map : ∀ S : List Nat, (∀ x ∈ S, x < 64) →
    decodeB64Chars (S.map b64char) = some S
  | [], _ => rfl
  | x :: rest, h => by
      have hx : x < 64 := h x (by simp)
      have ih := decodeB64Chars_map rest (by intro y hy; exact h y (by simp [hy]))
      have hidx := b64index_b64char ⟨x, hx⟩
      simp only [List.map_cons, decodeB64Chars, hidx, ih]

theorem takeWhile_pad_of_head_ne : ∀ M : List Char, (∀ c ∈ M, c ≠ '=') →
    M.takeWhile (fun c => c == '=') = [] := by
  intro M hM
  cases M with
  | nil => rfl
  | cons c t =>
      have : (c == '=') = false := by
        have := hM c (by simp)
        simp [this]
      simp [List.takeWhile, this]

theorem takeWhile_pad_replicate (p : Nat) (M : List Char) (hM : ∀ c ∈ M, c ≠ '=') :
    (List.replicate p '=' ++ M).takeWhile (fun c => c == '=') = List.replicate p '=' := by
  induction p with
  | zero => simpa using takeWhile_pad_of_head_ne M hM
  | succ n ihn =>
      rw [List.replicate_succ, List.cons_append, List.takeWhile_cons]
      simp [ihn]

theorem stripPad_encoded (M : List Char) (p : Nat) (hp : p ≤ 2)
    (hM : ∀ c ∈ M, c ≠ '=') :
    stripPad (M ++ List.replicate p '=') = M := by
  have hrev : (M ++ List.replicate p '=').reverse = List.replicate p '=' ++ M.reverse := by
    simp [List.reverse_append]
  have htail : ∀ c ∈ M.reverse, c ≠ '=' := by
    intro c hc; exact hM c (List.mem_reverse.mp hc)
  have htw : (List.replicate p '=' ++ M.reverse).takeWhile (fun c => c == '=') =
      List.replicate p '=' := takeWhile_pad_replicate p M.reverse htail
  have hlen : (M ++ List.replicate p '=').length = M.length + p := by simp
  have hmin : min 2 p = p := by omega
  unfold stripPad
  rw [hrev, htw, hlen]
  simp only [List.length_replicate, hmin]
  have : M.length + p - p = M.length := by omega
  rw [this]
  exact List.take_left M (List.replicate p '=')

theorem filter_encoded (M : List Char) (hM : ∀ c ∈ M, isB64Space c = false) :
    M.filter (fun c => !isB64Space c) = M := by
  rw [List.filter_eq_self]
  intro c hc
  simp [hM c hc]

/-- Round-trip of the binary-to-text codec: decoding an encoded byte buffer
recovers the buffer exactly. -/
theorem base64_roundtrip (bs : List Nat) (h : ∀ b ∈ bs, b < 256) :
    base64ToArrayBuffer (arrayBufferToBase64 bs) = some bs := by
  set S := bytesToSextets bs with hS
  set p := b64PadLen bs.length with hp
  have hS64 : ∀ x ∈ S, x < 64 := sextets_lt_64 bs h
  have hchars : ∀ c ∈ S.map b64char, c ≠ '=' := by
    intro c hc
    rcases List.mem_map.mp hc with ⟨x, hx, rfl⟩
    exact b64char_ne_pad ⟨x, hS64 x hx⟩
  have hspace : ∀ c ∈ S.map b64char ++ List.replicate p '=', isB64Space c = false := by
    intro c hc
    rcases List.mem_append.mp hc with hc | hc
    · rcases List.mem_map.mp hc with ⟨x, hx, rfl⟩
      exact b64char_not_space ⟨x, hS64 x hx⟩
    · have : c = '=' := List.eq_of_mem_replicate hc
      subst this
      rfl
  have hple : p ≤ 2 := by
    have : b64PadLen bs.length < 3 := Nat.mod_lt _ (by omega)
    omega
  unfold base64ToArrayBuffer arrayBufferToBase64
  simp only [String.data]
  rw [filter_encoded _ hspace]
  have hlen : ((S.map b64char ++ List.replicate p '=').length % 4 == 0) = true := by
    have := sextets_length_mod bs
    simp only [List.length_append, List.length_map, List.length_replicate]
    rw [← hS, ← hp] at this
    simpa using this
  rw [hlen]
  simp only [if_true]
  rw [stripPad_encoded _ p hple hchars]
  rw [decodeB64Chars_map S hS64]
  exact sextets_roundtrip bs h

/-- JavaScript numbers as they matter to this program: `nan`, or an exact
rational value. Infinities are collapsed into `nan`; the only comparison the
program performs on a coerced number is equality with 1, where an infinity
and `nan` behave the same way. -/
inductive JNum where
  | nan : JNum
  | val : ℚ → JNum
deriving DecidableEq

/-- JSON values as produced by `JSON.parse`. -/
inductive JValue where
  | null : JValue
  | bool : Bool → JValue
  | num : JNum → JValue
  | str : String → JValue
  | arr : List JValue → JValue
  | obj : List (String × JValue) → JValue

/-- JavaScript truthiness. -/
def truthy : JValue → Bool
  | .null => false
  | .bool b => b
  | .num .nan => false
  | .num (.val q) => q != 0
  | .str s => s != ""
  | .arr _ => true
  | .obj _ => true

/-- JavaScript `typeof x === "object"` (true for `null`, arrays and plain
objects). -/
def isObjectType : JValue → Bool
  | .null => true
  | .arr _ => true
  | .obj _ => true
  | _ => false

/-- Property access `v.k` on a parsed JSON value; `none` plays the role of
`undefined`. Duplicate keys keep the last occurrence, as `JSON.parse` does.
String-keyed access on arrays and primitives yields `undefined` for the keys
this program uses. -/
def getField : JValue → String → Option JValue
  | .obj fs, k => (fs.reverse.find? (fun p => p.fst == k)).map (fun p => p.snd)
  | _, _ => none

/-- Digit-string to `Nat`; `none` when empty or containing a non-digit. -/
def parseNatDigits (cs : List Char) : Option Nat :=
  if cs.isEmpty then none
  else if cs.all Char.isDigit then
    some (cs.foldl (fun a c => a * 10 + (c.toNat - 48)) 0)
  else none

/-- Hex digit string to `Nat`. -/
def parseHexDigits (cs : List Char) : Option Nat :=
  let isHex : Char → Bool := fun c =>
    c.isDigit || (decide ('a' ≤ c) && decide (c ≤ 'f')) || (decide ('A' ≤ c) && decide (c ≤ 'F'))
  let hexVal : Char → Nat := fun c =>
    if c.isDigit then c.toNat - 48 else if decide ('a' ≤ c) then c.toNat - 87 else c.toNat - 55
  if cs.isEmpty then none
  else if cs.all isHex then some (cs.foldl (fun a c => a * 16 + hexVal c) 0)
  else none

/-- Binary digit string to `Nat`. -/
def parseBinDigits (cs : List Char) : Option Nat :=
  if cs.isEmpty then none
  else if cs.all (fun c => c == '0' || c == '1') then
    some (cs.foldl (fun a c => a * 2 + (c.toNat - 48)) 0)
  else none

/-- Octal digit string to `Nat`. -/
def parseOctDigits (cs : List Char) : Option Nat :=
  if cs.isEmpty then none
  else if cs.all (fun c => decide ('0' ≤ c) && decide (c ≤ '7')) then
    some (cs.foldl (fun a c => a * 8 + (c.toNat - 48)) 0)
  else none

/-- Optionally signed digit string to `Int` (used for decimal exponents). -/
def parseSignedInt (cs : List Char) : Option Int :=
  match cs with
  | '+' :: r => (parseNatDigits r).map Int.ofNat
  | '-' :: r => (parseNatDigits r).map (fun n => -(n : Int))
  | r => (parseNatDigits r).map Int.ofNat

/-- Split a char list at the first exponent marker. -/
def splitExp (cs : List Char) : List Char × Option (List Char) :=
  match cs.findIdx? (fun c => c == 'e' || c == 'E') with
  | none => (cs, none)
  | some i => (cs.take i, some (cs.drop (i + 1)))

/-- Split a char list at the first decimal point. -/
def splitDot (cs : List Char) : List Char × List Char :=
  match cs.findIdx? (fun c => c == '.') with
  | none => (cs, [])
  | some i => (cs.take i, cs.drop (i + 1))

/-- Unsigned decimal literal (integer part, optional fraction, optional
exponent) to an exact rational. -/
def parseDecimal (cs : List Char) : Option ℚ :=
  let (mant, ex) := splitExp cs
  let (ip, fp) := splitDot mant
  if ip.isEmpty && fp.isEmpty then none
  else
    match (if ip.isEmpty then some 0 else parseNatDigits ip),
          (if fp.isEmpty then some 0 else parseNatDigits fp) with
    | some i, some f =>
        let base : ℚ := (i : ℚ) + (f : ℚ) / ((10 : ℚ) ^ fp.length)
        match ex with
        | none => some base
        | some ecs =>
            match parseSignedInt ecs with
            | some e => some (base * (10 : ℚ) ^ e)
            | none => none
    | _, _ => none

/-- Model of the JavaScript `Number(string)` coercion: trimmed empty string
is 0, decimal/hex/octal/binary literals parse exactly, everything else
(including `Infinity`, which this program only ever compares against 1) is
`nan`. -/
def strToNumber (s : String) : JNum :=
  let t := s.trim
  if t.isEmpty then .val 0
  else
    match t.data with
    | '+' :: r => match parseDecimal r with | some q => .val q | none => .nan
    | '-' :: r => match parseDecimal r with | some q => .val (-q) | none => .nan
    | '0' :: 'x' :: r => match parseHexDigits r with | some n => .val n | none => .nan
    | '0' :: 'X' :: r => match parseHexDigits r with | some n => .val n | none => .nan
    | '0' :: 'b' :: r => match parseBinDigits r with | some n => .val n | none => .nan
    | '0' :: 'B' :: r => match parseBinDigits r with | some n => .val n | none => .nan
    | '0' :: 'o' :: r => match parseOctDigits r with | some n => .val n | none => .nan
    | '0' :: 'O' :: r => match parseOctDigits r with | some n => .val n | none => .nan
    | r => match parseDecimal r with | some q => .val q | none => .nan

/-- Display form of a rational, used only for JavaScript string coercion of
numbers; integral values match the JavaScript rendering, non-integral values
are approximated. -/
def ratToString (q : ℚ) : String :=
  if q.den = 1 then toString q.num else toString q.num ++ "/" ++ toString q.den

mutual

/-- Model of the JavaScript string coercion `String(v)`. Only ever applied by
this program to non-string truthy slide fields; number formatting of
non-integral values is approximated. -/
def jsToString : JValue → String
  | .null => "null"
  | .bool b => if b then "true" else "false"
  | .num .nan => "NaN"
  | .num (.val q) => ratToString q
  | .str s => s
  | .arr xs => jsToStringList xs
  | .obj _ => "[object Object]"

/-- Model of `Array.prototype.join(",")`: `null` elements render as the
empty string. -/
def jsToStringList : List JValue → String
  | [] => ""
  | [v] => match v with | .null => "" | w => jsToString w
  | v :: rest =>
      (match v with | .null => "" | w => jsToString w) ++ "," ++ jsToStringList rest

end

/-- Model of the JavaScript `Number(v)` coercion on parsed JSON values.
Arrays go through their string form, plain objects are `nan`. -/
def toNumber : JValue → JNum
  | .null => .val 0
  | .bool b => .val (if b then 1 else 0)
  | .num n => n
  | .str s => strToNumber s
  | .arr xs => strToNumber (jsToStringList xs)
  | .obj _ => .nan

/-- Coercion `Number(v)` where `v` may be `undefined` (`Number(undefined)`
is `NaN`). -/
def toNumberOpt : Option JValue → JNum
  | none => .nan
  | some v => toNumber v

/-- A binary blob: payload bytes plus declared MIME type (`Blob` / `File`
content as far as this program inspects it). -/
structure Blob where
  bytes : List Nat
  type : String
deriving DecidableEq

/-- A file-like input: the four identity fields read by `fileSignature`,
plus the payload bytes. `lastModified` is an integer millisecond timestamp
(possibly negative). -/
structure SlideFile where
  name : String
  type : String
  size : Nat
  lastModified : Int
  bytes : List Nat
deriving DecidableEq

/-- A gallery entry as pushed by `registerEntry`: `{url, signature, label}`.
The object URL is modelled by the blob it references. -/
structure Entry where
  url : Blob
  signature : String
  label : String
deriving DecidableEq

/-- A persisted record in the `slides` object store:
`{signature, label, addedAt, bytes, type}`, keyed by `signature`. -/
structure SlideRecord where
  signature : String
  label : String
  addedAt : ℚ
  bytes : List Nat
  type : String
deriving DecidableEq

/-- The page-level mutable state: `imageEntries`, `imageSignatures`, the
IndexedDB `slides` store, and the delay setting (`delayRange.value` =
`delayInput.value`, plus its localStorage copy). The signature set is a list
used only through membership. -/
structure AppState where
  imageEntries : List Entry
  imageSignatures : List String
  store : List SlideRecord
  delayVal : ℚ
  delayStored : Option ℚ
deriving DecidableEq

/-- State at a fresh page load before any restore: empty gallery, empty
store, default delay of 200 not yet persisted. -/
def emptyState : AppState := ⟨[], [], [], 200, none⟩

/-- Model of `fileSignature` (src/app.js):
`[file.name, file.type, file.size, file.lastModified].join("::")`. -/
def fileSignature (f : SlideFile) : String :=
  String.intercalate "::" [f.name, f.type, toString f.size, toString f.lastModified]

/-- Per-page signature used by `addPdfFile`:
`${fileSignature(file)}::page${pageNumber}`. -/
def pageSignature (f : SlideFile) (pageNumber : Nat) : String :=
  fileSignature f ++ "::page" ++ toString pageNumber

/-- Record type stored by `saveSlideRecord`:
`blob.type || "application/octet-stream"`. -/
def blobStoreType (b : Blob) : String :=
  if b.type = "" then "application/octet-stream" else b.type

/-- Model of `store.put(record)` on the `slides` object store: upsert keyed
by `signature`. -/
def storePut (store : List SlideRecord) (r : SlideRecord) : List SlideRecord :=
  if r.signature ∈ store.map SlideRecord.signature then
    store.map (fun q => if q.signature = r.signature then r else q)
  else store ++ [r]

/-- Model of `saveSlideRecord` (src/app.js): reads the blob bytes and puts
`{signature, label, addedAt, bytes, type: blob.type || "application/octet-stream"}`. -/
def saveSlideRecord (store : List SlideRecord) (sig label : String) (blob : Blob)
    (addedAt : ℚ) : List SlideRecord :=
  storePut store ⟨sig, label, addedAt, blob.bytes, blobStoreType blob⟩

/-- Model of `registerEntry` (src/app.js): the single check-then-insert
registration step. Skips when the signature is already known; otherwise
appends the entry, adds the signature, and (when `persist`) writes the
record through `saveSlideRecord`. -/
def registerEntry (st : AppState) (blob : Blob) (label sig : String)
    (persist : Bool) (addedAt : ℚ) : Bool × AppState :=
  if sig ∈ st.imageSignatures then (false, st)
  else
    (true,
      { st with
        imageEntries := st.imageEntries ++ [⟨blob, sig, label⟩],
        imageSignatures := st.imageSignatures ++ [sig],
        store := if persist then saveSlideRecord st.store sig label blob addedAt else st.store })

/-- Model of `getPersistedSlides` (src/app.js): `getAll()` returns records
in ascending key (signature) order; the result is then stably sorted by
`(a.addedAt || 0) - (b.addedAt || 0)`. Both sorts are modelled by the stable
`insertionSort`. -/
def getPersistedSlides (store : List SlideRecord) : List SlideRecord :=
  List.insertionSort (fun a b => a.addedAt ≤ b.addedAt)
    (List.insertionSort (fun a b => a.signature ≤ b.signature) store)

/-- Computation `Number(value) || 0`: `nan` (and 0 itself) becomes 0. -/
def jnumOr0 : JNum → ℚ
  | .nan => 0
  | .val q => q

/-- The clamp performed by `applyDelay`:
`Math.min(2000, Math.max(0, Number(value) || 0))`. -/
def clampDelay (n : JNum) : ℚ := min 2000 (max 0 (jnumOr0 n))

/-- Model of `applyDelay` (src/app.js): clamps, writes both delay widgets,
and persists to localStorage when `persist` is set. -/
def applyDelay (st : AppState) (n : JNum) (persist : Bool) : AppState :=
  { st with
    delayVal := clampDelay n,
    delayStored := if persist then some (clampDelay n) else st.delayStored }

/-- Model of `addImageFile` (src/app.js): signature dedup check, then
registration of the file blob under `file.name || "Image"`. Returns the
count contributed to `added` (0 or 1). -/
def addImageFile (st : AppState) (f : SlideFile) (now : ℚ) : Nat × AppState :=
  if fileSignature f ∈ st.imageSignatures then (0, st)
  else
    let res := registerEntry st ⟨f.bytes, f.type⟩
      (if f.name = "" then "Image" else f.name) (fileSignature f) true now
    (if res.fst then 1 else 0, res.snd)

/-- The rasterization behaviour of one loaded PDF document: page count, and
per page either the losslessly encoded page image or `none` when the page
load, render, or blob encode fails. -/
structure PdfDoc where
  numPages : Nat
  pageRender : Nat → Option Blob

/-- Result shape of `addPdfFile`: `{added, total}`. -/
structure PdfResult where
  added : Nat
  total : Nat
deriving DecidableEq

/-- The per-page loop of `addPdfFile`: dedup check on the page signature,
then render; any per-page failure skips just that page. -/
def addPdfPages (f : SlideFile) (doc : PdfDoc) (now : ℚ) :
    AppState → List Nat → Nat × AppState
  | st, [] => (0, st)
  | st, n :: rest =>
      if pageSignature f n ∈ st.imageSignatures then addPdfPages f doc now st rest
      else
        match doc.pageRender n with
        | none => addPdfPages f doc now st rest
        | some blob =>
            let res := registerEntry st blob
              ((if f.name = "" then "PDF" else f.name) ++ " - page " ++ toString n)
              (pageSignature f n) true now
            let res2 := addPdfPages f doc now res.snd rest
            ((if res.fst then 1 else 0) + res2.fst, res2.snd)

/-- Model of `addPdfFile` (src/app.js): reports `{added: 0, total: 0}`
without touching anything when the rasterization capability is absent;
otherwise walks pages 1..numPages in order. -/
def addPdfFile (pdfSupported : Bool) (st : AppState) (f : SlideFile) (doc : PdfDoc)
    (now : ℚ) : PdfResult × AppState :=
  if !pdfSupported then (⟨0, 0⟩, st)
  else
    let res := addPdfPages f doc now st (List.range' 1 doc.numPages)
    (⟨res.fst, doc.numPages⟩, res.snd)

/-- Coercion `slide.field || defaultString` for slide fields that are used as
strings; a non-string truthy value goes through the string coercion (the
code keeps the raw value, which only ever flows into labels and MIME
types). -/
def jsOrString (v : Option JValue) (dflt : String) : String :=
  match v with
  | some w => if truthy w then jsToString w else dflt
  | none => dflt

/-- Coercion `slide.addedAt || Date.now()` for the typed record model: a nonzero
numeric value is kept, everything falsy — and, as an approximation, a
non-numeric truthy value — becomes `now`. -/
def jsOrNumber (v : Option JValue) (now : ℚ) : ℚ :=
  match v with
  | some (.num (.val q)) => if q = 0 then now else q
  | _ => now

/-- Result shape of `importSavedPackage`. -/
structure ImportResult where
  added : Nat
  total : Nat
  error : Bool
deriving DecidableEq

/-- One iteration of the slide loop in `importSavedPackage`: skip falsy
slides and slides whose `bytes` is not a string; then decode the base64
payload (`continue` on failure), build the blob, and register with the
original signature or the freshly generated `genSig`. -/
def processSlide (st : AppState) (v : JValue) (genSig : String) (now : ℚ) :
    Bool × AppState :=
  if !truthy v then (false, st)
  else
    match getField v "bytes" with
    | some (.str b64) =>
        match base64ToArrayBuffer b64 with
        | none => (false, st)
        | some buffer =>
            registerEntry st
              ⟨buffer, jsOrString (getField v "type") "application/octet-stream"⟩
              (jsOrString (getField v "label") "Image")
              (jsOrString (getField v "signature") genSig)
              true
              (jsOrNumber (getField v "addedAt") now)
    | _ => (false, st)

/-- The slide loop of `importSavedPackage`; `gen i` is the random signature
`generateImportSignature` would produce for the slide at position `i`. -/
def importSlides (gen : Nat → String) (now : ℚ) :
    AppState → Nat → List JValue → Nat × AppState
  | st, _, [] => (0, st)
  | st, i, v :: rest =>
      let res := processSlide st v (gen i) now
      let res2 := importSlides gen now res.snd (i + 1) rest
      ((if res.fst then 1 else 0) + res2.fst, res2.snd)

/-- The acceptance gate of `importSavedPackage`:
`data && typeof data === "object" && Number(data.version) === 1 &&
Array.isArray(data.slides)`; `none` stands for a `JSON.parse` failure. -/
def packageAccepted (data : Option JValue) : Bool :=
  match data with
  | none => false
  | some d =>
      truthy d && isObjectType d &&
        decide (toNumberOpt (getField d "version") = JNum.val 1) &&
        (match getField d "slides" with | some (.arr _) => true | _ => false)

/-- Model of `importSavedPackage` (src/app.js): parse (already done by the
caller, `none` on failure), gate on shape and version, apply a numeric
`delay`, then run the slide loop; any document-level failure reports
`{added: 0, total: 0, error: true}` and leaves the state untouched. -/
def importSavedPackage (st : AppState) (data : Option JValue) (gen : Nat → String)
    (now : ℚ) : ImportResult × AppState :=
  match data with
  | none => (⟨0, 0, true⟩, st)
  | some d =>
      match getField d "slides" with
      | some (.arr slides) =>
          if truthy d && isObjectType d &&
              decide (toNumberOpt (getField d "version") = JNum.val 1) then
            let st1 := match getField d "delay" with
              | some (.num n) => applyDelay st n true
              | _ => st
            let res := importSlides gen now st1 0 slides
            (⟨res.fst, slides.length, false⟩, res.snd)
          else (⟨0, 0, true⟩, st)
      | _ => (⟨0, 0, true⟩, st)

/-- JSON form of one persisted record inside the export package. -/
def recordToJson (r : SlideRecord) : JValue :=
  .obj [("signature", .str r.signature), ("label", .str r.label),
        ("type", .str r.type), ("addedAt", .num (.val r.addedAt)),
        ("bytes", .str (arrayBufferToBase64 r.bytes))]

/-- Model of `buildExportPayload` (src/app.js): snapshot the persisted
records in retrieval order, base64-encode each payload, and wrap with
version, current delay, and generation timestamp. -/
def buildExportPayload (st : AppState) (generatedAt : String) : JValue :=
  .obj [("version", .num (.val 1)), ("delay", .num (.val st.delayVal)),
        ("generatedAt", .str generatedAt),
        ("slides", .arr ((getPersistedSlides st.store).map recordToJson))]

/-- One iteration of the restore loop: skip records with a falsy signature,
rebuild the blob from the stored bytes and `type || "application/octet-stream"`,
and register with `persist: false` and `addedAt || Date.now()`. -/
def restoreStep (now : ℚ) (s : AppState) (r : SlideRecord) : AppState :=
  if r.signature = "" then s
  else
    (registerEntry s
      ⟨r.bytes, if r.type = "" then "application/octet-stream" else r.type⟩
      (if r.label = "" then "Image" else r.label)
      r.signature false
      (if r.addedAt = 0 then now else r.addedAt)).snd

/-- Model of `restorePersistedSlides` (src/app.js): read all persisted
records in order and register each without re-persisting (`persist: false`),
keeping the stored `addedAt`. -/
def restorePersistedSlides (st : AppState) (now : ℚ) : AppState :=
  (getPersistedSlides st.store).foldl (restoreStep now) st

/-- Model of `String.prototype.startsWith`, on character lists so that it
evaluates inside the kernel. -/
def jsStartsWith (s p : String) : Bool := p.data.isPrefixOf s.data

/-- Model of `String.prototype.endsWith`, on character lists. -/
def jsEndsWith (s p : String) : Bool := p.data.isSuffixOf s.data

/-- Model of `String.prototype.toLowerCase` (ASCII range, which covers the
suffixes compared by the classifier). -/
def jsToLower (s : String) : String := String.mk (s.data.map Char.toLower)

/-- Classification used by `addFiles`: saved-package candidates by MIME type
or (lowercased) name suffix. -/
def isPackageCandidate (f : SlideFile) : Bool :=
  f.type == "application/json" || jsEndsWith (jsToLower f.name) ".json" ||
    jsEndsWith (jsToLower f.name) ".lss" || jsEndsWith (jsToLower f.name) ".slideshow"

/-- Aggregate counters returned by `addFiles`. -/
structure AddFilesResult where
  added : Nat
  supported : Nat
  unsupported : Nat
  pdfUnsupported : Nat
  packageSlidesAdded : Nat
  packagesProcessed : Nat
  packageErrors : Nat
  packageSlidesTotal : Nat
deriving DecidableEq

/-- All-zero counters. -/
def zeroResult : AddFilesResult := ⟨0, 0, 0, 0, 0, 0, 0, 0⟩

/-- Fieldwise sum of counters (the loop accumulates into mutable locals). -/
def addResults (a b : AddFilesResult) : AddFilesResult :=
  ⟨a.added + b.added, a.supported + b.supported, a.unsupported + b.unsupported,
   a.pdfUnsupported + b.pdfUnsupported, a.packageSlidesAdded + b.packageSlidesAdded,
   a.packagesProcessed + b.packagesProcessed, a.packageErrors + b.packageErrors,
   a.packageSlidesTotal + b.packageSlidesTotal⟩

/-- One incoming unit handed to `addFiles`: the file, its behaviour when
loaded as a PDF (`none` when `getDocument` rejects), its `JSON.parse` result
when read as a package (`none` when parsing throws), and the random
signatures `generateImportSignature` would produce during its import. -/
structure InFile where
  file : SlideFile
  pdf : Option PdfDoc
  parsed : Option JValue
  genSigs : Nat → String

/-- Model of `addFiles` (src/app.js): classify each incoming file as
package / image / PDF / unsupported in input order and accumulate the
counters. With PDF support absent, PDF files bump `pdfUnsupported` and are
not attempted. -/
def addFiles (pdfSupported : Bool) (now : ℚ) :
    AppState → List InFile → AddFilesResult × AppState
  | st, [] => (zeroResult, st)
  | st, f :: rest =>
      let step : AddFilesResult × AppState :=
        if isPackageCandidate f.file then
          let pres := importSavedPackage st f.parsed f.genSigs now
          if pres.fst.error then
            ({ zeroResult with unsupported := 1, packageErrors := 1 }, pres.snd)
          else
            ({ zeroResult with
                supported := pres.fst.total, packageSlidesTotal := pres.fst.total,
                added := pres.fst.added, packageSlidesAdded := pres.fst.added,
                packagesProcessed := 1 }, pres.snd)
        else if jsStartsWith f.file.type "image/" then
          let ires := addImageFile st f.file now
          ({ zeroResult with supported := 1, added := ires.fst }, ires.snd)
        else if f.file.type = "application/pdf" then
          if !pdfSupported then
            ({ zeroResult with supported := 1, pdfUnsupported := 1 }, st)
          else
            match f.pdf with
            | none => ({ zeroResult with supported := 1 }, st)
            | some doc =>
                let dres := addPdfFile pdfSupported st f.file doc now
                ({ zeroResult with supported := 1, added := dres.fst.added }, dres.snd)
        else ({ zeroResult with unsupported := 1 }, st)
      let rest2 := addFiles pdfSupported now step.snd rest
      (addResults step.fst rest2.fst, rest2.snd)

theorem registerEntry_of_mem (st : AppState) (b : Blob) (label sig : String)
    (p : Bool) (t : ℚ) (h : sig ∈ st.imageSignatures) :
    registerEntry st b label sig p t = (false, st) := by
  simp [registerEntry, h]

theorem registerEntry_of_fresh (st : AppState) (b : Blob) (label sig : String)
    (p : Bool) (t : ℚ) (h : sig ∉ st.imageSignatures) :
    registerEntry st b label sig p t =
      (true,
        { st with
          imageEntries := st.imageEntries ++ [⟨b, sig, label⟩],
          imageSignatures := st.imageSignatures ++ [sig],
          store := if p then saveSlideRecord st.store sig label b t else st.store }) := by
  simp [registerEntry, h]

theorem registerEntry_sig_mem (st : AppState) (b : Blob) (label sig : String)
    (p : Bool) (t : ℚ) :
    sig ∈ (registerEntry st b label sig p t).snd.imageSignatures := by
  by_cases h : sig ∈ st.imageSignatures
  · rw [registerEntry_of_mem st b label sig p t h]
    exact h
  · rw [registerEntry_of_fresh st b label sig p t h]
    simp

theorem registerEntry_sigs_mono (st : AppState) (b : Blob) (label sig : String)
    (p : Bool) (t : ℚ) (x : String) (hx : x ∈ st.imageSignatures) :
    x ∈ (registerEntry st b label sig p t).snd.imageSignatures := by
  by_cases h : sig ∈ st.imageSignatures
  · rw [registerEntry_of_mem st b label sig p t h]
    exact hx
  · rw [registerEntry_of_fresh st b label sig p t h]
    simp [hx]

theorem registerEntry_delay (st : AppState) (b : Blob) (label sig : String)
    (p : Bool) (t : ℚ) :
    (registerEntry st b label sig p t).snd.delayVal = st.delayVal ∧
      (registerEntry st b label sig p t).snd.delayStored = st.delayStored := by
  by_cases h : sig ∈ st.imageSignatures
  · rw [registerEntry_of_mem st b label sig p t h]
    exact ⟨rfl, rfl⟩
  · rw [registerEntry_of_fresh st b label sig p t h]
    exact ⟨rfl, rfl⟩

theorem registerEntry_store_no_persist (st : AppState) (b : Blob) (label sig : String)
    (t : ℚ) :
    (registerEntry st b label sig false t).snd.store = st.store := by
  by_cases h : sig ∈ st.imageSignatures
  · rw [registerEntry_of_mem st b label sig false t h]
  · rw [registerEntry_of_fresh st b label sig false t h]
    simp

/-- The signature-uniqueness invariant of §3 / §8 of the specification: no
two gallery entries share a signature, no two persisted records share a
signature, and the signature set covers every gallery entry. -/
def StateInv (st : AppState) : Prop :=
  (st.imageEntries.map Entry.signature).Nodup ∧
  (st.store.map SlideRecord.signature).Nodup ∧
  ∀ e ∈ st.imageEntries, e.signature ∈ st.imageSignatures

instance (st : AppState) : Decidable (StateInv st) := by
  unfold StateInv
  infer_instance

theorem storePut_nodup (store : List SlideRecord) (r : SlideRecord)
    (h : (store.map SlideRecord.signature).Nodup) :
    ((storePut store r).map SlideRecord.signature).Nodup := by
  unfold storePut
  split
  · have hmap : (store.map (fun q => if q.signature = r.signature then r else q)).map
        SlideRecord.signature = store.map SlideRecord.signature := by
      rw [List.map_map]
      apply List.map_congr_left
      intro q _
      by_cases hc : q.signature = r.signature <;> simp [hc]
    rw [hmap]
    exact h
  · rename_i hmem
    rw [List.map_append]
    refine List.Nodup.append h (List.nodup_singleton _) ?_
    intro a ha hb
    simp only [List.map_cons, List.map_nil, List.mem_singleton] at hb
    subst hb
    exact hmem ha

theorem registerEntry_StateInv (st : AppState) (b : Blob) (label sig : String)
    (p : Bool) (t : ℚ) (h : StateInv st) :
    StateInv (registerEntry st b label sig p t).snd := by
  by_cases hmem : sig ∈ st.imageSignatures
  · rw [registerEntry_of_mem st b label sig p t hmem]
    exact h
  · rw [registerEntry_of_fresh st b label sig p t hmem]
    obtain ⟨h1, h2, h3⟩ := h
    refine ⟨?_, ?_, ?_⟩
    · rw [List.map_append]
      refine List.Nodup.append h1 (by simp) ?_
      intro a ha hb
      simp only [List.map_cons, List.map_nil, List.mem_singleton] at hb
      subst hb
      rcases List.mem_map.mp ha with ⟨e, he, hesig⟩
      exact hmem (hesig ▸ h3 e he)
    · cases p with
      | false => exact h2
      | true => exact storePut_nodup st.store _ h2
    · intro e he
      rcases List.mem_append.mp he with he | he
      · exact List.mem_append_left _ (h3 e he)
      · simp only [List.mem_singleton] at he
        subst he
        simp

theorem storePut_not_mem (store : List SlideRecord) (r : SlideRecord)
    (h : r.signature ∉ store.map SlideRecord.signature) :
    storePut store r = store ++ [r] := by
  unfold storePut
  rw [if_neg h]

theorem processSlide_delay (st : AppState) (v : JValue) (g : String) (now : ℚ) :
    (processSlide st v g now).snd.delayVal = st.delayVal ∧
      (processSlide st v g now).snd.delayStored = st.delayStored := by
  simp only [processSlide]
  split
  · exact ⟨rfl, rfl⟩
  · split
    · split
      · exact ⟨rfl, rfl⟩
      · exact registerEntry_delay _ _ _ _ _ _
    · exact ⟨rfl, rfl⟩

theorem processSlide_StateInv (st : AppState) (v : JValue) (g : String) (now : ℚ)
    (h : StateInv st) : StateInv (processSlide st v g now).snd := by
  simp only [processSlide]
  split
  · exact h
  · split
    · split
      · exact h
      · exact registerEntry_StateInv _ _ _ _ _ _ h
    · exact h

theorem importSlides_delay (gen : Nat → String) (now : ℚ) :
    ∀ (slides : List JValue) (st : AppState) (i : Nat),
    (importSlides gen now st i slides).snd.delayVal = st.delayVal ∧
      (importSlides gen now st i slides).snd.delayStored = st.delayStored
  | [], st, i => ⟨rfl, rfl⟩
  | v :: rest, st, i => by
      have h1 := processSlide_delay st v (gen i) now
      have h2 := importSlides_delay gen now rest (processSlide st v (gen i) now).snd (i + 1)
      simp only [importSlides]
      exact ⟨h2.1.trans h1.1, h2.2.trans h1.2⟩

theorem importSlides_StateInv (gen : Nat → String) (now : ℚ) :
    ∀ (slides : List JValue) (st : AppState) (i : Nat), StateInv st →
    StateInv (importSlides gen now st i slides).snd
  | [], _, _, h => h
  | v :: rest, st, i, h => by
      simp only [importSlides]
      exact importSlides_StateInv gen now rest _ (i + 1)
        (processSlide_StateInv st v (gen i) now h)

theorem applyDelay_StateInv (st : AppState) (n : JNum) (p : Bool) (h : StateInv st) :
    StateInv (applyDelay st n p) := h

theorem importSavedPackage_StateInv (st : AppState) (data : Option JValue)
    (gen : Nat → String) (now : ℚ) (h : StateInv st) :
    StateInv (importSavedPackage st data gen now).snd := by
  cases data with
  | none => exact h
  | some d =>
      simp only [importSavedPackage]
      split
      · split
        · dsimp only
          apply importSlides_StateInv
          split
          · exact applyDelay_StateInv _ _ _ h
          · exact h
        · exact h
      · exact h

theorem addImageFile_StateInv (st : AppState) (f : SlideFile) (now : ℚ)
    (h : StateInv st) : StateInv (addImageFile st f now).snd := by
  simp only [addImageFile]
  split
  · exact h
  · dsimp only
    exact registerEntry_StateInv _ _ _ _ _ _ h

theorem addPdfPages_StateInv (f : SlideFile) (doc : PdfDoc) (now : ℚ) :
    ∀ (pages : List Nat) (st : AppState), StateInv st →
    StateInv (addPdfPages f doc now st pages).snd
  | [], _, h => h
  | n :: rest, st, h => by
      simp only [addPdfPages]
      split
      · exact addPdfPages_StateInv f doc now rest st h
      · split
        · exact addPdfPages_StateInv f doc now rest st h
        · dsimp only
          exact addPdfPages_StateInv f doc now rest _
            (registerEntry_StateInv _ _ _ _ _ _ h)

theorem addPdfFile_StateInv (sup : Bool) (st : AppState) (f : SlideFile)
    (doc : PdfDoc) (now : ℚ) (h : StateInv st) :
    StateInv (addPdfFile sup st f doc now).snd := by
  simp only [addPdfFile]
  split
  · exact h
  · dsimp only
    exact addPdfPages_StateInv f doc now _ st h

theorem restoreStep_StateInv (now : ℚ) (s : AppState) (r : SlideRecord)
    (h : StateInv s) : StateInv (restoreStep now s r) := by
  simp only [restoreStep]
  split
  · exact h
  · exact registerEntry_StateInv _ _ _ _ _ _ h

theorem foldl_restoreStep_StateInv (now : ℚ) :
    ∀ (l : List SlideRecord) (st : AppState), StateInv st →
    StateInv (l.foldl (restoreStep now) st)
  | [], _, h => h
  | r :: rest, st, h => by
      simp only [List.foldl_cons]
      exact foldl_restoreStep_StateInv now rest _ (restoreStep_StateInv now st r h)

theorem restorePersistedSlides_StateInv (st : AppState) (now : ℚ)
    (h : StateInv st) : StateInv (restorePersistedSlides st now) :=
  foldl_restoreStep_StateInv now _ st h

theorem restoreStep_store (now : ℚ) (s : AppState) (r : SlideRecord) :
    (restoreStep now s r).store = s.store := by
  simp only [restoreStep]
  split
  · rfl
  · exact registerEntry_store_no_persist _ _ _ _ _

theorem foldl_restoreStep_store (now : ℚ) :
    ∀ (l : List SlideRecord) (st : AppState),
    (l.foldl (restoreStep now) st).store = st.store
  | [], _ => rfl
  | r :: rest, st => by
      simp only [List.foldl_cons]
      exact (foldl_restoreStep_store now rest _).trans (restoreStep_store now st r)

/-- Well-formedness of a persisted record as the specification describes
them (§3, §6): truthy signature, label and MIME type, a nonzero timestamp,
and byte-valued payload. Every record the program itself persists has this
shape. -/
def WfRecord (r : SlideRecord) : Prop :=
  r.signature ≠ "" ∧ r.label ≠ "" ∧ r.type ≠ "" ∧ r.addedAt ≠ 0 ∧ ∀ b ∈ r.bytes, b < 256

instance (r : SlideRecord) : Decidable (WfRecord r) := by
  unfold WfRecord
  infer_instance

/-- The gallery entry produced when a well-formed record round-trips through
the package codec. -/
def importEntryOf (r : SlideRecord) : Entry :=
  ⟨⟨r.bytes, r.type⟩, r.signature, r.label⟩

/-- The gallery entry produced when a record is restored from the store. -/
def restoreEntryOf (r : SlideRecord) : Entry :=
  ⟨⟨r.bytes, if r.type = "" then "application/octet-stream" else r.type⟩,
   r.signature, if r.label = "" then "Image" else r.label⟩

theorem truthy_recordToJson (r : SlideRecord) : truthy (recordToJson r) = true := rfl

theorem getField_record_bytes (r : SlideRecord) :
    getField (recordToJson r) "bytes" = some (.str (arrayBufferToBase64 r.bytes)) := rfl

theorem getField_record_type (r : SlideRecord) :
    getField (recordToJson r) "type" = some (.str r.type) := rfl

theorem getField_record_label (r : SlideRecord) :
    getField (recordToJson r) "label" = some (.str r.label) := rfl

theorem getField_record_signature (r : SlideRecord) :
    getField (recordToJson r) "signature" = some (.str r.signature) := rfl

theorem getField_record_addedAt (r : SlideRecord) :
    getField (recordToJson r) "addedAt" = some (.num (.val r.addedAt)) := rfl

theorem processSlide_record (st : AppState) (r : SlideRecord) (g : String) (now : ℚ)
    (hwf : WfRecord r) (hfresh : r.signature ∉ st.imageSignatures) :
    processSlide st (recordToJson r) g now =
      (true,
        { st with
          imageEntries := st.imageEntries ++ [importEntryOf r],
          imageSignatures := st.imageSignatures ++ [r.signature],
          store := storePut st.store r }) := by
  obtain ⟨hsig, hlab, hty, hadd, hbytes⟩ := hwf
  simp only [processSlide, getField_record_bytes, base64_roundtrip r.bytes hbytes,
    getField_record_type, getField_record_label, getField_record_signature,
    getField_record_addedAt, jsOrString, jsOrNumber, truthy, jsToString,
    bne_iff_ne, ne_eq, hty, hlab, hsig, not_false_eq_true, if_true, hadd]
  simp only [recordToJson, Bool.not_true, Bool.false_eq_true, if_false, ite_false]
  rw [registerEntry_of_fresh st _ _ _ true r.addedAt hfresh]
  simp only [if_true, saveSlideRecord, blobStoreType, hty, importEntryOf,
    not_false_eq_true, ne_eq, if_false]

theorem processSlide_bad_bytes (st : AppState) (v : JValue) (g : String) (now : ℚ)
    (s : String) (ht : truthy v = true) (hb : getField v "bytes" = some (.str s))
    (hd : base64ToArrayBuffer s = none) :
    processSlide st v g now = (false, st) := by
  simp only [processSlide, ht, hb, hd, Bool.not_true, Bool.false_eq_true, if_false]

theorem importSlides_records (gen : Nat → String) (now : ℚ) :
    ∀ (L : List SlideRecord) (st : AppState) (i : Nat),
    (∀ r ∈ L, WfRecord r) →
    ((L.map SlideRecord.signature).Nodup) →
    (∀ r ∈ L, r.signature ∉ st.imageSignatures) →
    (∀ r ∈ L, r.signature ∉ st.store.map SlideRecord.signature) →
    importSlides gen now st i (L.map recordToJson) =
      (L.length,
        { st with
          imageEntries := st.imageEntries ++ L.map importEntryOf,
          imageSignatures := st.imageSignatures ++ L.map SlideRecord.signature,
          store := st.store ++ L })
  | [], st, i, _, _, _, _ => by
      simp [importSlides]
  | r :: L, st, i, hwf, hnd, hfr, hfrs => by
      have hwr : WfRecord r := hwf r (by simp)
      have hfrr : r.signature ∉ st.imageSignatures := hfr r (by simp)
      have hfrsr : r.signature ∉ st.store.map SlideRecord.signature := hfrs r (by simp)
      have hnd' : r.signature ∉ L.map SlideRecord.signature ∧
          (L.map SlideRecord.signature).Nodup := by
        rw [List.map_cons] at hnd
        exact List.nodup_cons.mp hnd
      have hsne : ∀ q ∈ L, q.signature ≠ r.signature := by
        intro q hq hqe
        exact hnd'.1 (hqe ▸ List.mem_map_of_mem SlideRecord.signature hq)
      have hih := importSlides_records gen now L
        { st with
          imageEntries := st.imageEntries ++ [importEntryOf r],
          imageSignatures := st.imageSignatures ++ [r.signature],
          store := st.store ++ [r] }
        (i + 1)
        (fun q hq => hwf q (by simp [hq]))
        hnd'.2
        (by
          intro q hq
          simp only [List.mem_append, List.mem_singleton, not_or]
          exact ⟨hfr q (by simp [hq]), hsne q hq⟩)
        (by
          intro q hq
          simp only [List.map_append, List.map_cons, List.map_nil, List.mem_append,
            List.mem_singleton, not_or]
          exact ⟨hfrs q (by simp [hq]), hsne q hq⟩)
      simp only [List.map_cons, importSlides]
      rw [processSlide_record st r (gen i) now hwr hfrr]
      simp only [storePut_not_mem st.store r hfrsr] at hih ⊢
      simp only [hih]
      simp only [Prod.mk.injEq, List.length_cons, if_true, List.append_assoc,
        List.singleton_append, List.cons_append]
      exact ⟨by omega, rfl⟩

theorem importSlides_append (gen : Nat → String) (now : ℚ) :
    ∀ (A B : List JValue) (st : AppState) (i : Nat),
    importSlides gen now st i (A ++ B) =
      ((importSlides gen now st i A).fst +
        (importSlides gen now (importSlides gen now st i A).snd (i + A.length) B).fst,
       (importSlides gen now (importSlides gen now st i A).snd (i + A.length) B).snd)
  | [], B, st, i => by simp [importSlides]
  | v :: A, B, st, i => by
      simp only [List.cons_append, importSlides, List.append_eq]
      rw [importSlides_append gen now A B (processSlide st v (gen i) now).snd (i + 1)]
      have hidx : i + 1 + A.length = i + (A.length + 1) := by omega
      simp only [List.length_cons, hidx, Prod.mk.injEq]
      exact ⟨by omega, trivial⟩

theorem restoreStep_fresh (now : ℚ) (st : AppState) (r : SlideRecord)
    (hsig : r.signature ≠ "") (hfresh : r.signature ∉ st.imageSignatures) :
    restoreStep now st r =
      { st with
        imageEntries := st.imageEntries ++ [restoreEntryOf r],
        imageSignatures := st.imageSignatures ++ [r.signature] } := by
  simp only [restoreStep, hsig, if_false, ite_false]
  rw [registerEntry_of_fresh st _ _ _ false (if r.addedAt = 0 then now else r.addedAt) hfresh]
  simp [restoreEntryOf]

theorem restoreFold_entries (now : ℚ) :
    ∀ (l : List SlideRecord) (st : AppState),
    (∀ r ∈ l, r.signature ≠ "") →
    ((l.map SlideRecord.signature).Nodup) →
    (∀ r ∈ l, r.signature ∉ st.imageSignatures) →
    l.foldl (restoreStep now) st =
      { st with
        imageEntries := st.imageEntries ++ l.map restoreEntryOf,
        imageSignatures := st.imageSignatures ++ l.map SlideRecord.signature }
  | [], st, _, _, _ => by simp
  | r :: l, st, hsig, hnd, hfr => by
      have hnd' : r.signature ∉ l.map SlideRecord.signature ∧
          (l.map SlideRecord.signature).Nodup := by
        rw [List.map_cons] at hnd
        exact List.nodup_cons.mp hnd
      have hsne : ∀ q ∈ l, q.signature ≠ r.signature := by
        intro q hq hqe
        exact hnd'.1 (hqe ▸ List.mem_map_of_mem SlideRecord.signature hq)
      have hstep := restoreStep_fresh now st r (hsig r (by simp)) (hfr r (by simp))
      have hih := restoreFold_entries now l
        { st with
          imageEntries := st.imageEntries ++ [restoreEntryOf r],
          imageSignatures := st.imageSignatures ++ [r.signature] }
        (fun q hq => hsig q (by simp [hq]))
        hnd'.2
        (by
          intro q hq
          simp only [List.mem_append, List.mem_singleton, not_or]
          exact ⟨hfr q (by simp [hq]), hsne q hq⟩)
      simp only [List.foldl_cons, hstep, hih, List.map_cons, List.append_assoc,
        List.singleton_append]

theorem addPdfPages_skip (f : SlideFile) (doc : PdfDoc) (now : ℚ) :
    ∀ (pages : List Nat) (st : AppState),
    (∀ n ∈ pages, pageSignature f n ∈ st.imageSignatures) →
    addPdfPages f doc now st pages = (0, st)
  | [], _, _ => rfl
  | n :: rest, st, h => by
      simp only [addPdfPages, h n (by simp), if_true]
      exact addPdfPages_skip f doc now rest st (fun m hm => h m (by simp [hm]))

theorem addPdfPages_sigs_mono (f : SlideFile) (doc : PdfDoc) (now : ℚ) :
    ∀ (pages : List Nat) (st : AppState) (x : String), x ∈ st.imageSignatures →
    x ∈ (addPdfPages f doc now st pages).snd.imageSignatures
  | [], _, _, hx => hx
  | n :: rest, st, x, hx => by
      simp only [addPdfPages]
      split
      · exact addPdfPages_sigs_mono f doc now rest st x hx
      · split
        · exact addPdfPages_sigs_mono f doc now rest st x hx
        · dsimp only
          exact addPdfPages_sigs_mono f doc now rest _ x
            (registerEntry_sigs_mono st _ _ _ true now x hx)

theorem addPdfPages_covers (f : SlideFile) (doc : PdfDoc) (now : ℚ) :
    ∀ (pages : List Nat) (st : AppState) (n : Nat), n ∈ pages →
    (doc.pageRender n).isSome = true →
    pageSignature f n ∈ (addPdfPages f doc now st pages).snd.imageSignatures
  | [], _, n, hn, _ => absurd hn (List.not_mem_nil n)
  | m :: rest, st, n, hn, hr => by
      rcases List.mem_cons.mp hn with rfl | hn
      · simp only [addPdfPages]
        split
        · rename_i hmem
          exact addPdfPages_sigs_mono f doc now rest st _ hmem
        · cases hrend : doc.pageRender n with
          | none => rw [hrend] at hr; simp at hr
          | some blob =>
              simp only [hrend]
              exact addPdfPages_sigs_mono f doc now rest _ _
                (registerEntry_sig_mem st blob _ _ true now)
      · simp only [addPdfPages]
        split
        · exact addPdfPages_covers f doc now rest st n hn hr
        · split
          · exact addPdfPages_covers f doc now rest st n hn hr
          · dsimp only
            exact addPdfPages_covers f doc now rest _ n hn hr

theorem addImageFile_of_mem (st : AppState) (f : SlideFile) (now : ℚ)
    (h : fileSignature f ∈ st.imageSignatures) :
    addImageFile st f now = (0, st) := by
  simp only [addImageFile, h, if_true]

theorem addImageFile_sig_mem (st : AppState) (f : SlideFile) (now : ℚ) :
    fileSignature f ∈ (addImageFile st f now).snd.imageSignatures := by
  simp only [addImageFile]
  split
  · rename_i h
    exact h
  · exact registerEntry_sig_mem _ _ _ _ _ _

/-- Claim C8: ingesting the same image file twice (identical name, type,
size, last-modified) yields `added = 0` on the second ingestion and leaves
the gallery entries sequence — in fact the whole state — unchanged. -/
theorem image_dedup_idempotent (st : AppState) (f : SlideFile) (now1 now2 : ℚ) :
    addImageFile (addImageFile st f now1).snd f now2 =
      (0, (addImageFile st f now1).snd) ∧
    (addImageFile (addImageFile st f now1).snd f now2).snd.imageEntries.length =
      (addImageFile st f now1).snd.imageEntries.length := by
  have h := addImageFile_of_mem (addImageFile st f now1).snd f now2
    (addImageFile_sig_mem st f now1)
  exact ⟨h, by rw [h]⟩

/-- Two image files that differ in `name` and `type` but produce the same
joined signature, because the `"::"` delimiter also occurs inside `name`. -/
def collideFileA : SlideFile := ⟨"a::b", "image/png", 1, 2, [10]⟩

/-- The partner of `collideFileA`: same joined signature, different fields. -/
def collideFileB : SlideFile := ⟨"a", "b::image/png", 1, 2, [11]⟩

/-- Claim C9: `fileSignature` is not injective — two files differing in
`name` and `type` (one name containing the `"::"` delimiter) receive equal
signatures, and the second such file is treated as a duplicate and skipped
by image ingestion. -/
theorem fileSignature_not_injective :
    collideFileA ≠ collideFileB ∧
    collideFileA.name ≠ collideFileB.name ∧
    collideFileA.type ≠ collideFileB.type ∧
    fileSignature collideFileA = fileSignature collideFileB ∧
    (addImageFile (addImageFile emptyState collideFileA 1).snd collideFileB 2).fst = 0 ∧
    (addImageFile (addImageFile emptyState collideFileA 1).snd
      collideFileB 2).snd.imageEntries.length = 1 := by
  refine ⟨by decide, by decide, by decide, rfl, ?_, ?_⟩
  · rfl
  · rfl

/-- A PDF-typed file used in the page-signature collision scenario. -/
def pdfFileA : SlideFile := ⟨"doc.pdf", "application/pdf", 4, 7, [1, 2]⟩

/-- A distinct PDF-typed file sharing all four identity fields with
`pdfFileA` (its bytes differ). -/
def pdfFileB : SlideFile := ⟨"doc.pdf", "application/pdf", 4, 7, [3, 4]⟩

/-- A one-page document whose single page always renders. -/
def onePageDoc : PdfDoc := ⟨1, fun _ => some ⟨[9], "image/png"⟩⟩

/-- Claim C1 counterexample: two distinct documents sharing a base file
signature produce colliding page signatures, and a page of the second
document is treated as a duplicate of the first's page (`added = 0`),
contradicting the claimed cross-document disambiguation. -/
theorem page_signature_disambiguation_fails :
    pdfFileA ≠ pdfFileB ∧
    fileSignature pdfFileA = fileSignature pdfFileB ∧
    pageSignature pdfFileA 1 = pageSignature pdfFileB 1 ∧
    (addPdfFile true (addPdfFile true emptyState pdfFileA onePageDoc 1).snd
      pdfFileB onePageDoc 2).fst.added = 0 := by
  refine ⟨by decide, rfl, rfl, ?_⟩
  rfl

theorem mem_range_one (m len : Nat) : m ∈ List.range' 1 len ↔ 1 ≤ m ∧ m ≤ len := by
  rw [List.mem_range']
  constructor
  · rintro ⟨i, hi, rfl⟩
    omega
  · rintro ⟨h1, h2⟩
    exact ⟨m - 1, by omega, by omega⟩

/-- Claim C1 (amended): two documents sharing a base file signature receive
identical page signatures at equal page numbers, so after fully ingesting
the first document (all pages rendering), ingesting a second document with
the same base signature and no more pages adds zero pages and leaves the
state unchanged: its pages are treated as duplicates of the first's. -/
theorem page_signatures_collide_across_equal_bases (f1 f2 : SlideFile)
    (doc1 doc2 : PdfDoc) (st : AppState) (now1 now2 : ℚ) (n : Nat)
    (hsig : fileSignature f1 = fileSignature f2) :
    pageSignature f1 n = pageSignature f2 n ∧
    ((∀ k, 1 ≤ k → k ≤ doc1.numPages → (doc1.pageRender k).isSome = true) →
     doc2.numPages ≤ doc1.numPages →
     addPdfFile true (addPdfFile true st f1 doc1 now1).snd f2 doc2 now2 =
       (⟨0, doc2.numPages⟩, (addPdfFile true st f1 doc1 now1).snd)) := by
  constructor
  · unfold pageSignature
    rw [hsig]
  · intro hrend hle
    have hcov : ∀ m ∈ List.range' 1 doc2.numPages,
        pageSignature f2 m ∈
          (addPdfFile true st f1 doc1 now1).snd.imageSignatures := by
      intro m hm
      rw [mem_range_one] at hm
      have hm1 : m ∈ List.range' 1 doc1.numPages :=
        (mem_range_one m _).mpr ⟨hm.1, le_trans hm.2 hle⟩
      have hps : pageSignature f2 m = pageSignature f1 m := by
        unfold pageSignature
        rw [hsig]
      rw [hps]
      simp only [addPdfFile, Bool.not_true, Bool.false_eq_true, if_false]
      exact addPdfPages_covers f1 doc1 now1 _ st m hm1
        (hrend m hm.1 (le_trans hm.2 hle))
    simp only [addPdfFile, Bool.not_true, Bool.false_eq_true, if_false] at hcov ⊢
    rw [addPdfPages_skip f2 doc2 now2 _ _ hcov]

/-- Witness for the amended C1 theorem at a concrete collision. -/
theorem page_signatures_collide_witness :
    pageSignature pdfFileA 1 = pageSignature pdfFileB 1 ∧
    addPdfFile true (addPdfFile true emptyState pdfFileA onePageDoc 1).snd
        pdfFileB onePageDoc 2 =
      (⟨0, 1⟩, (addPdfFile true emptyState pdfFileA onePageDoc 1).snd) := by
  have h := page_signatures_collide_across_equal_bases pdfFileA pdfFileB
    onePageDoc onePageDoc emptyState 1 2 1 rfl
  exact ⟨h.1, h.2 (fun k _ _ => rfl) (le_refl 1)⟩

theorem addFiles_pdfUnsupported_count (now : ℚ) :
    ∀ (files : List InFile) (st : AppState),
    (addFiles false now st files).fst.pdfUnsupported =
      files.countP
        (fun f => !isPackageCandidate f.file && (f.file.type == "application/pdf"))
  | [], _ => rfl
  | f :: rest, st => by
      simp only [addFiles, List.countP_cons]
      by_cases hpkg : isPackageCandidate f.file = true
      · by_cases herr : (importSavedPackage st f.parsed f.genSigs now).fst.error = true
        · simp [hpkg, herr, addResults, zeroResult,
            addFiles_pdfUnsupported_count now rest]
        · simp [hpkg, herr, addResults, zeroResult,
            addFiles_pdfUnsupported_count now rest]
      · by_cases himg : jsStartsWith f.file.type "image/" = true
        · have hnp : (f.file.type == "application/pdf") = false := by
            by_cases hpdf : f.file.type = "application/pdf"
            · rw [hpdf] at himg
              exact absurd himg (by decide)
            · simp [hpdf]
          simp [hpkg, himg, hnp, addResults, zeroResult,
            addFiles_pdfUnsupported_count now rest]
        · by_cases hpdf : f.file.type = "application/pdf"
          · have hsp : jsStartsWith "application/pdf" "image/" = false := by decide
            simp [hpkg, himg, hpdf, hsp, addResults, zeroResult,
              addFiles_pdfUnsupported_count now rest]
            omega
          · have hnp : (f.file.type == "application/pdf") = false := by simp [hpdf]
            simp [hpkg, himg, hpdf, hnp, addResults, zeroResult,
              addFiles_pdfUnsupported_count now rest]

theorem addFiles_all_pdf_unsupported (now : ℚ) :
    ∀ (files : List InFile) (st : AppState),
    (∀ f ∈ files, isPackageCandidate f.file = false ∧
      f.file.type = "application/pdf") →
    addFiles false now st files =
      ({ zeroResult with supported := files.length, pdfUnsupported := files.length }, st)
  | [], st, _ => by simp [addFiles, zeroResult]
  | f :: rest, st, h => by
      have hf := h f (by simp)
      have hsp : jsStartsWith "application/pdf" "image/" = false := by decide
      simp only [addFiles, hf.1, hf.2, hsp, Bool.false_eq_true, if_false,
        Bool.not_false, if_true]
      rw [addFiles_all_pdf_unsupported now rest st (fun g hg => h g (by simp [hg]))]
      simp [addResults, zeroResult, AddFilesResult.mk.injEq, Prod.mk.injEq]
      omega

/-- Claim C2: with the rasterization capability absent, every PDF-typed file
in a batch is counted in the `pdfUnsupported` counter rather than attempted —
a batch of only such files returns all-unsupported counters and an unchanged
state — and the rasterizer itself reports zero pages added and zero total
without doing any work. -/
theorem pdf_capability_absent_counts_unsupported :
    (∀ (now : ℚ) (files : List InFile) (st : AppState),
      (addFiles false now st files).fst.pdfUnsupported =
        files.countP
          (fun f => !isPackageCandidate f.file && (f.file.type == "application/pdf"))) ∧
    (∀ (now : ℚ) (files : List InFile) (st : AppState),
      (∀ f ∈ files, isPackageCandidate f.file = false ∧
        f.file.type = "application/pdf") →
      addFiles false now st files =
        ({ zeroResult with supported := files.length, pdfUnsupported := files.length }, st)) ∧
    (∀ (st : AppState) (f : SlideFile) (doc : PdfDoc) (now : ℚ),
      addPdfFile false st f doc now = (⟨0, 0⟩, st)) :=
  ⟨fun now files st => addFiles_pdfUnsupported_count now files st,
   fun now files st h => addFiles_all_pdf_unsupported now files st h,
   fun _ _ _ _ => rfl⟩

/-- A PDF input unit used as a concrete witness. -/
def wPdfInFile : InFile :=
  ⟨⟨"doc.pdf", "application/pdf", 4, 7, [1, 2]⟩, none, none, fun _ => "import-w"⟩

/-- Witness for C2 at a concrete one-file batch. -/
theorem pdf_capability_absent_witness :
    addFiles false 0 emptyState [wPdfInFile] =
      ({ zeroResult with supported := 1, pdfUnsupported := 1 }, emptyState) := by
  have h := pdf_capability_absent_counts_unsupported.2.1 0 [wPdfInFile] emptyState
    (by intro f hf; rw [List.mem_singleton] at hf; subst hf; exact ⟨by decide, rfl⟩)
  simpa using h

/-- Claim C4: any input whose parse fails, whose top-level shape does not
match, or whose version field does not coerce to 1, makes package decoding
return `{added: 0, total: 0, error: true}` and leaves the whole state —
gallery entries, signature set, persisted store, delay setting — unchanged. -/
theorem import_rejects_bad_package (st : AppState) (data : Option JValue)
    (gen : Nat → String) (now : ℚ) (h : packageAccepted data = false) :
    importSavedPackage st data gen now = (⟨0, 0, true⟩, st) := by
  cases data with
  | none => rfl
  | some d =>
      simp only [importSavedPackage]
      split
      · rename_i slides heq
        simp only [packageAccepted, heq, Bool.and_true] at h
        rw [if_neg]
        intro hc
        rw [h] at hc
        exact Bool.false_ne_true hc
      · rfl

/-- A malformed package: right shape, wrong version. -/
def wBadPackage : JValue :=
  .obj [("version", .num (.val 2)), ("slides", .arr [])]

/-- Witness for C4 at a concrete wrong-version package. -/
theorem import_rejects_bad_package_witness :
    importSavedPackage emptyState (some wBadPackage) (fun _ => "import-w") 3 =
      (⟨0, 0, true⟩, emptyState) :=
  import_rejects_bad_package emptyState (some wBadPackage) (fun _ => "import-w") 3
    (by decide)

/-- Claim C10: for a structurally valid version-1 package whose `delay`
field is a JavaScript number, import applies and persists the clamped delay
(range 0–2000, `NaN` to 0) regardless of what the slide entries do. -/
theorem import_applies_clamped_delay (st : AppState) (d : JValue)
    (gen : Nat → String) (now : ℚ) (n : JNum)
    (hacc : packageAccepted (some d) = true)
    (hdelay : getField d "delay" = some (.num n)) :
    (importSavedPackage st (some d) gen now).snd.delayVal =
      min 2000 (max 0 (jnumOr0 n)) ∧
    (importSavedPackage st (some d) gen now).snd.delayStored =
      some (min 2000 (max 0 (jnumOr0 n))) := by
  cases hs : getField d "slides" with
  | none =>
      rw [packageAccepted] at hacc
      rw [hs] at hacc
      simp at hacc
  | some w =>
      cases w with
      | arr slides =>
          rw [packageAccepted] at hacc
          rw [hs] at hacc
          simp only [Bool.and_true] at hacc
          simp only [importSavedPackage, hs, hacc, if_true, hdelay]
          have h1 := importSlides_delay gen now slides (applyDelay st n true) 0
          rw [h1.1, h1.2]
          exact ⟨rfl, rfl⟩
      | null =>
          rw [packageAccepted] at hacc
          rw [hs] at hacc
          simp at hacc
      | bool b =>
          rw [packageAccepted] at hacc
          rw [hs] at hacc
          simp at hacc
      | num m =>
          rw [packageAccepted] at hacc
          rw [hs] at hacc
          simp at hacc
      | str t =>
          rw [packageAccepted] at hacc
          rw [hs] at hacc
          simp at hacc
      | obj fs =>
          rw [packageAccepted] at hacc
          rw [hs] at hacc
          simp at hacc

/-- A valid version-1 package whose only slide entry has corrupt bytes and
whose delay is `NaN`. -/
def wNanDelayPackage : JValue :=
  .obj [("version", .num (.val 1)), ("delay", .num .nan),
        ("slides", .arr [.obj [("bytes", .str "%%%%")]])]

/-- Witness for C10: the `NaN` delay is applied as 0 and persisted even
though the only slide entry is corrupt and nothing is added. -/
theorem import_applies_clamped_delay_witness :
    (importSavedPackage emptyState (some wNanDelayPackage) (fun _ => "import-w") 3).snd.delayVal = 0 ∧
    (importSavedPackage emptyState (some wNanDelayPackage) (fun _ => "import-w") 3).snd.delayStored = some 0 ∧
    (importSavedPackage emptyState (some wNanDelayPackage) (fun _ => "import-w") 3).fst.added = 0 := by
  have h := import_applies_clamped_delay emptyState wNanDelayPackage
    (fun _ => "import-w") 3 .nan (by decide) rfl
  refine ⟨?_, ?_, ?_⟩
  · rw [h.1]
    decide
  · rw [h.2]
    decide
  · decide

/-- Claim C7: the signature-uniqueness invariant — no two gallery entries
and no two persisted records share a signature, and the signature set covers
every gallery entry — holds initially and is preserved by every operation
that adds slides (image ingest, PDF page ingest, package import, restore),
each of which goes through the single check-then-insert `registerEntry`. -/
theorem signature_uniqueness_invariant :
    StateInv emptyState ∧
    (∀ (st : AppState) (b : Blob) (label sig : String) (p : Bool) (t : ℚ),
      StateInv st → StateInv (registerEntry st b label sig p t).snd) ∧
    (∀ (st : AppState) (f : SlideFile) (now : ℚ),
      StateInv st → StateInv (addImageFile st f now).snd) ∧
    (∀ (sup : Bool) (st : AppState) (f : SlideFile) (doc : PdfDoc) (now : ℚ),
      StateInv st → StateInv (addPdfFile sup st f doc now).snd) ∧
    (∀ (st : AppState) (data : Option JValue) (gen : Nat → String) (now : ℚ),
      StateInv st → StateInv (importSavedPackage st data gen now).snd) ∧
    (∀ (st : AppState) (now : ℚ),
      StateInv st → StateInv (restorePersistedSlides st now)) :=
  ⟨by simp [StateInv, emptyState],
   fun st b label sig p t h => registerEntry_StateInv st b label sig p t h,
   fun st f now h => addImageFile_StateInv st f now h,
   fun sup st f doc now h => addPdfFile_StateInv sup st f doc now h,
   fun st data gen now h => importSavedPackage_StateInv st data gen now h,
   fun st now h => restorePersistedSlides_StateInv st now h⟩

/-- A plain image file used as a concrete witness input. -/
def wImageFile : SlideFile := ⟨"w.png", "image/png", 3, 5, [1, 2]⟩

/-- Witness for C7: the invariant holds after a concrete image ingestion
starting from the initial state. -/
theorem signature_uniqueness_invariant_witness :
    StateInv (addImageFile emptyState wImageFile 3).snd :=
  signature_uniqueness_invariant.2.2.1 emptyState wImageFile 3
    signature_uniqueness_invariant.1

/-- Claim C6: restore never writes to the store (the persisted records are
unchanged, count included), and against a startup gallery it reproduces the
persisted records as entries in exactly the ascending-`addedAt` retrieval
order. -/
theorem restore_no_write_ordered :
    (∀ (st : AppState) (now : ℚ),
      (restorePersistedSlides st now).store = st.store) ∧
    (∀ (st : AppState) (now : ℚ),
      st.imageEntries = [] → st.imageSignatures = [] →
      ((st.store.map SlideRecord.signature).Nodup) →
      (∀ r ∈ st.store, r.signature ≠ "") →
      (restorePersistedSlides st now).imageEntries =
        (getPersistedSlides st.store).map restoreEntryOf) := by
  constructor
  · intro st now
    exact foldl_restoreStep_store now _ st
  · intro st now he hs hnd hne
    have hperm : (getPersistedSlides st.store).Perm st.store :=
      (List.perm_insertionSort _ _).trans (List.perm_insertionSort _ _)
    have hnd2 : ((getPersistedSlides st.store).map SlideRecord.signature).Nodup :=
      ((hperm.map SlideRecord.signature).symm).nodup hnd
    unfold restorePersistedSlides
    rw [restoreFold_entries now (getPersistedSlides st.store) st
      (fun r hr => hne r (hperm.mem_iff.mp hr)) hnd2
      (by
        intro r _
        rw [hs]
        exact List.not_mem_nil _)]
    simp [he]

/-- Two persisted records whose retrieval order differs from their store
order. -/
def wRecordA : SlideRecord := ⟨"sA", "a.png", 9, [1], "image/png"⟩

/-- Second witness record, with the earlier timestamp. -/
def wRecordB : SlideRecord := ⟨"sB", "b.png", 2, [3], "image/png"⟩

/-- A startup state holding the two witness records. -/
def wStoreState : AppState := ⟨[], [], [wRecordA, wRecordB], 200, none⟩

/-- Witness for C6 at a concrete two-record store. -/
theorem restore_no_write_ordered_witness :
    (restorePersistedSlides wStoreState 4).store = wStoreState.store ∧
    (restorePersistedSlides wStoreState 4).imageEntries =
      (getPersistedSlides wStoreState.store).map restoreEntryOf :=
  ⟨restore_no_write_ordered.1 wStoreState 4,
   restore_no_write_ordered.2 wStoreState 4 rfl rfl (by decide) (by decide)⟩

/-- Claim C3: for a non-empty persisted set of well-formed records with
distinct signatures, decoding the encoded export package into a fresh
session registers every slide and leaves the store holding records with
identical signature, label, type and `addedAt`, and byte-identical payload —
the codec round-trips losslessly (and the exported delay is re-applied,
clamped). -/
theorem export_import_roundtrip (recs : List SlideRecord) (dv : ℚ) (ds : Option ℚ)
    (genAt : String) (gen : Nat → String) (now : ℚ)
    (_hne : recs ≠ [])
    (hwf : ∀ r ∈ recs, WfRecord r)
    (hnd : (recs.map SlideRecord.signature).Nodup) :
    importSavedPackage emptyState
        (some (buildExportPayload ⟨[], [], recs, dv, ds⟩ genAt)) gen now =
      (⟨recs.length, recs.length, false⟩,
        ⟨(getPersistedSlides recs).map importEntryOf,
         (getPersistedSlides recs).map SlideRecord.signature,
         getPersistedSlides recs,
         min 2000 (max 0 dv),
         some (min 2000 (max 0 dv))⟩) := by
  have hperm : (getPersistedSlides recs).Perm recs :=
    (List.perm_insertionSort _ _).trans (List.perm_insertionSort _ _)
  have hwf2 : ∀ r ∈ getPersistedSlides recs, WfRecord r :=
    fun r hr => hwf r (hperm.mem_iff.mp hr)
  have hnd2 : ((getPersistedSlides recs).map SlideRecord.signature).Nodup :=
    ((hperm.map SlideRecord.signature).symm).nodup hnd
  have hlen : (getPersistedSlides recs).length = recs.length := hperm.length_eq
  have hsl : getField (buildExportPayload ⟨[], [], recs, dv, ds⟩ genAt) "slides" =
      some (.arr ((getPersistedSlides recs).map recordToJson)) := rfl
  have hdel : getField (buildExportPayload ⟨[], [], recs, dv, ds⟩ genAt) "delay" =
      some (.num (.val dv)) := rfl
  have hgate : (truthy (buildExportPayload ⟨[], [], recs, dv, ds⟩ genAt) &&
      isObjectType (buildExportPayload ⟨[], [], recs, dv, ds⟩ genAt) &&
      decide (toNumberOpt
        (getField (buildExportPayload ⟨[], [], recs, dv, ds⟩ genAt) "version") =
          JNum.val 1)) = true := rfl
  simp only [importSavedPackage, hsl, hgate, if_true, hdel]
  rw [importSlides_records gen now (getPersistedSlides recs)
    (applyDelay emptyState (.val dv) true) 0 hwf2 hnd2
    (fun r _ => List.not_mem_nil r.signature)
    (fun r _ => List.not_mem_nil r.signature)]
  simp only [List.nil_append, List.length_map, hlen, applyDelay, emptyState,
    clampDelay, jnumOr0, if_true]

/-- Claim C5: a structurally valid version-1 package with five decodable
well-formed slide entries (fresh, distinct signatures) and one truthy entry
whose `bytes` string fails base64 decoding yields `{added: 5, total: 6}`
with no error flag; the five valid slides are all registered and persisted
and the bad entry aborts nothing. -/
theorem import_skips_corrupt_slide (pre post : List SlideRecord) (bad : JValue)
    (st : AppState) (gen : Nat → String) (now : ℚ) (s : String)
    (hlen : pre.length + post.length = 5)
    (hwf : ∀ r ∈ pre ++ post, WfRecord r)
    (hnd : ((pre ++ post).map SlideRecord.signature).Nodup)
    (hfr : ∀ r ∈ pre ++ post, r.signature ∉ st.imageSignatures)
    (hfrs : ∀ r ∈ pre ++ post, r.signature ∉ st.store.map SlideRecord.signature)
    (htr : truthy bad = true)
    (hbb : getField bad "bytes" = some (.str s))
    (hdec : base64ToArrayBuffer s = none) :
    importSavedPackage st
        (some (.obj [("version", .num (.val 1)),
          ("slides", .arr (pre.map recordToJson ++ bad :: post.map recordToJson))]))
        gen now =
      (⟨5, 6, false⟩,
        { st with
          imageEntries := st.imageEntries ++ (pre ++ post).map importEntryOf,
          imageSignatures := st.imageSignatures ++ (pre ++ post).map SlideRecord.signature,
          store := st.store ++ (pre ++ post) }) := by
  rw [List.map_append] at hnd
  obtain ⟨hndA, hndB, hdisj⟩ := List.nodup_append.mp hnd
  have hwfA : ∀ r ∈ pre, WfRecord r := fun r hr => hwf r (List.mem_append_left _ hr)
  have hwfB : ∀ r ∈ post, WfRecord r := fun r hr => hwf r (List.mem_append_right _ hr)
  have hfrA : ∀ r ∈ pre, r.signature ∉ st.imageSignatures :=
    fun r hr => hfr r (List.mem_append_left _ hr)
  have hfrB : ∀ r ∈ post, r.signature ∉ st.imageSignatures :=
    fun r hr => hfr r (List.mem_append_right _ hr)
  have hfrsA : ∀ r ∈ pre, r.signature ∉ st.store.map SlideRecord.signature :=
    fun r hr => hfrs r (List.mem_append_left _ hr)
  have hfrsB : ∀ r ∈ post, r.signature ∉ st.store.map SlideRecord.signature :=
    fun r hr => hfrs r (List.mem_append_right _ hr)
  have hBnotA : ∀ r ∈ post, r.signature ∉ pre.map SlideRecord.signature := by
    intro r hr hmem
    exact hdisj hmem (List.mem_map_of_mem SlideRecord.signature hr)
  have hsl : getField (.obj [("version", .num (.val 1)),
      ("slides", .arr (pre.map recordToJson ++ bad :: post.map recordToJson))]) "slides" =
      some (.arr (pre.map recordToJson ++ bad :: post.map recordToJson)) := rfl
  have hdel : getField (.obj [("version", .num (.val 1)),
      ("slides", .arr (pre.map recordToJson ++ bad :: post.map recordToJson))]) "delay" =
      none := rfl
  have hgate : (truthy (.obj [("version", .num (.val 1)),
      ("slides", .arr (pre.map recordToJson ++ bad :: post.map recordToJson))]) &&
      isObjectType (.obj [("version", .num (.val 1)),
        ("slides", .arr (pre.map recordToJson ++ bad :: post.map recordToJson))]) &&
      decide (toNumberOpt (getField (.obj [("version", .num (.val 1)),
        ("slides", .arr (pre.map recordToJson ++ bad :: post.map recordToJson))])
          "version") = JNum.val 1)) = true := rfl
  simp only [importSavedPackage, hsl, hgate, if_true, hdel]
  rw [importSlides_append gen now (pre.map recordToJson)
    (bad :: post.map recordToJson) st 0]
  rw [importSlides_records gen now pre st 0 hwfA hndA hfrA hfrsA]
  simp only [importSlides]
  rw [processSlide_bad_bytes _ bad _ now s htr hbb hdec]
  rw [importSlides_records gen now post
    { st with
      imageEntries := st.imageEntries ++ pre.map importEntryOf,
      imageSignatures := st.imageSignatures ++ pre.map SlideRecord.signature,
      store := st.store ++ pre }
    (0 + (pre.map recordToJson).length + 1) hwfB hndB
    (by
      intro r hr
      simp only [List.mem_append, not_or]
      exact ⟨hfrB r hr, hBnotA r hr⟩)
    (by
      intro r hr
      simp only [List.map_append, List.mem_append, not_or]
      exact ⟨hfrsB r hr, hBnotA r hr⟩)]
  simp only [Bool.false_eq_true, if_false, Prod.mk.injEq, ImportResult.mk.injEq,
    List.length_append, List.length_map, List.length_cons, List.map_append,
    List.append_assoc, Nat.zero_add, Nat.add_zero]
  refine ⟨⟨by omega, by omega, trivial⟩, trivial⟩

/-- Witness for C3 at a concrete two-record persisted set. -/
theorem export_import_roundtrip_witness :
    importSavedPackage emptyState
        (some (buildExportPayload ⟨[], [], [wRecordA, wRecordB], 200, none⟩ "t"))
        (fun _ => "import-w") 9 =
      (⟨2, 2, false⟩,
        ⟨(getPersistedSlides [wRecordA, wRecordB]).map importEntryOf,
         (getPersistedSlides [wRecordA, wRecordB]).map SlideRecord.signature,
         getPersistedSlides [wRecordA, wRecordB],
         200, some 200⟩) := by
  have h := export_import_roundtrip [wRecordA, wRecordB] 200 none "t"
    (fun _ => "import-w") 9 (by decide) (by decide) (by decide)
  rw [h]
  norm_num

/-- Five well-formed witness slides for the corrupt-package scenario. -/
def wSlide1 : SlideRecord := ⟨"s1", "l1", 1, [1], "image/png"⟩

/-- Second witness slide. -/
def wSlide2 : SlideRecord := ⟨"s2", "l2", 2, [2], "image/png"⟩

/-- Third witness slide. -/
def wSlide3 : SlideRecord := ⟨"s3", "l3", 3, [3], "image/png"⟩

/-- Fourth witness slide. -/
def wSlide4 : SlideRecord := ⟨"s4", "l4", 4, [4], "image/png"⟩

/-- Fifth witness slide. -/
def wSlide5 : SlideRecord := ⟨"s5", "l5", 5, [5], "image/png"⟩

/-- A slide entry whose `bytes` string is not valid base64. -/
def wCorruptSlide : JValue := .obj [("bytes", .str "%%%%")]

/-- Witness for C5 at a concrete six-entry package. -/
theorem import_skips_corrupt_slide_witness :
    importSavedPackage emptyState
        (some (.obj [("version", .num (.val 1)),
          ("slides", .arr ([wSlide1, wSlide2, wSlide3].map recordToJson ++
            wCorruptSlide :: [wSlide4, wSlide5].map recordToJson))]))
        (fun _ => "import-w") 7 =
      (⟨5, 6, false⟩,
        { emptyState with
          imageEntries := emptyState.imageEntries ++
            ([wSlide1, wSlide2, wSlide3] ++ [wSlide4, wSlide5]).map importEntryOf,
          imageSignatures := emptyState.imageSignatures ++
            ([wSlide1, wSlide2, wSlide3] ++ [wSlide4, wSlide5]).map SlideRecord.signature,
          store := emptyState.store ++ ([wSlide1, wSlide2, wSlide3] ++ [wSlide4, wSlide5]) }) :=
  import_skips_corrupt_slide [wSlide1, wSlide2, wSlide3] [wSlide4, wSlide5]
    wCorruptSlide emptyState (fun _ => "import-w") 7 "%%%%"
    (by decide) (by decide) (by decide) (by decide) (by decide) (by decide)
    rfl (by decide)
